import Mathlib

/-!
Verification of the model-operator repository: a shallow embedding of the
Model reconciler (internal/controller), the admission mutator
(internal/webhook), and the resource builders and naming helpers
(internal/resources), together with theorems settling the behavioural
claims about them.

Strings are modelled by Lean strings; the Go standard-library string
helpers the code calls are re-implemented structurally below so that every
definition evaluates inside the kernel.
-/

namespace MO

/-! ### String helpers

Structural re-implementations of the Go standard-library calls used by the
operator: strings.ToUpper, strings.ReplaceAll, strings.Contains,
strings.HasSuffix, strings.TrimSuffix with "/", strings.TrimSpace and
strings.Split with ",". -/

def isPrefixL : List Char → List Char → Bool
  | [], _ => true
  | _ :: _, [] => false
  | a :: as, b :: bs => a == b && isPrefixL as bs

def containsL (pat : List Char) : List Char → Bool
  | [] => isPrefixL pat []
  | c :: rest => isPrefixL pat (c :: rest) || containsL pat rest

/-- strings.Contains: pat occurs as a substring of s. -/
def containsS (s pat : String) : Bool := containsL pat.data s.data

/-- Fuel-driven worker for replaceS; replaces leftmost non-overlapping
occurrences, as strings.ReplaceAll does. The fuel is the length of the
remaining input, which suffices because every step consumes at least one
character when the pattern is non-empty (all call sites pass a non-empty
pattern). -/
def replaceGo (pat rep : List Char) : Nat → List Char → List Char
  | 0, s => s
  | _ + 1, [] => []
  | fuel + 1, c :: rest =>
    if pat.isEmpty then c :: rest
    else if isPrefixL pat (c :: rest) then rep ++ replaceGo pat rep fuel ((c :: rest).drop pat.length)
    else c :: replaceGo pat rep fuel rest

/-- strings.ReplaceAll s pat rep. -/
def replaceS (s pat rep : String) : String :=
  ⟨replaceGo pat.data rep.data s.data.length s.data⟩

/-- strings.HasSuffix s suf. -/
def endsWithS (s suf : String) : Bool := isPrefixL suf.data.reverse s.data.reverse

/-- strings.TrimSuffix s "/" (removes at most one trailing slash). -/
def trimSlash (s : String) : String :=
  if endsWithS s "/" then ⟨s.data.dropLast⟩ else s

/-- strings.ToUpper (character-wise uppercasing). -/
def upperS (s : String) : String := ⟨s.data.map Char.toUpper⟩

def dropWS : List Char → List Char
  | [] => []
  | c :: rest => if c == ' ' || c == '\t' || c == '\n' || c == '\r' then dropWS rest else c :: rest

/-- strings.TrimSpace. -/
def trimS (s : String) : String := ⟨(dropWS (dropWS s.data).reverse).reverse⟩

def splitCommaGo : List Char → List Char → List String
  | [], acc => [⟨acc.reverse⟩]
  | c :: rest, acc =>
    if c == ',' then ⟨acc.reverse⟩ :: splitCommaGo rest [] else splitCommaGo rest (c :: acc)

/-- strings.Split s ",". -/
def splitComma (s : String) : List String := splitCommaGo s.data []

/-! ### Naming module (internal/resources/naming.go)

Pure functions mapping a model name to derived resource names. The Go
function returning the environment-variable name base is EnvVarPre-fix; it
is embedded here as envVarBase. -/

/-- PVCName: storage-claim name for a model. -/
def PVCName (modelName : String) : String := "model-" ++ modelName

/-- JobName: download-Job name for a model. -/
def JobName (modelName : String) : String := "model-download-" ++ modelName

/-- VolumeName: pod volume name for a model. -/
def VolumeName (modelName : String) : String := "model-" ++ modelName

/-- Environment-variable name base for a model: MODEL_ + uppercase name
with hyphens replaced by underscores. -/
def envVarBase (modelName : String) : String :=
  "MODEL_" ++ replaceS (upperS modelName) "-" "_"

/-- DefaultMountPath: default mount path for a model. -/
def DefaultMountPath (modelName : String) : String := "/models/" ++ modelName

/-! ### Data model (api/v1alpha1/model_types.go)

The source union has four optional variants; fields that are consumed only
by the generated download shell scripts (include/exclude patterns, LFS and
depth flags, Modelfile configuration) are carried but not interpreted by
the embedded operations, exactly as the claims never mention them. -/

structure HuggingFaceSource where
  repoID : String
  revision : String
  includeList : List String
  excludeList : List String
deriving DecidableEq

structure URLSource where
  url : String
deriving DecidableEq

structure S3Source where
  bucket : String
  key : String
  endpoint : String
  region : String
deriving DecidableEq

structure GitSource where
  url : String
  ref : String
  lfs : Option Bool
  depth : Option Int
  includeList : List String
  excludeList : List String
deriving DecidableEq

structure ModelSource where
  huggingFace : Option HuggingFaceSource
  url : Option URLSource
  s3 : Option S3Source
  git : Option GitSource
deriving DecidableEq

structure StorageSpec where
  storageClass : String
  size : String
  accessModes : List String
deriving DecidableEq

structure ModelSpec where
  source : ModelSource
  storage : StorageSpec
  version : String
  credentialsSecret : String
  nodeSelector : List (String × String)
deriving DecidableEq

/-- A metav1.Condition as the controller writes it: the status field only
ever takes the values ConditionTrue and ConditionFalse, so it is embedded
as a Bool; the last transition time is an abstract clock value. -/
structure Condition where
  ctype : String
  cstatus : Bool
  reason : String
  message : String
  lastTransitionTime : Nat
  observedGeneration : Int
deriving DecidableEq

structure ModelStatus where
  phase : String
  pvcName : String
  message : String
  progress : Int
  conditions : List Condition
  observedGeneration : Int
deriving DecidableEq

structure Model where
  name : String
  ns : String
  generation : Int
  spec : ModelSpec
  status : ModelStatus
deriving DecidableEq

def phasePending : String := "Pending"
def phaseDownloading : String := "Downloading"
def phaseReady : String := "Ready"
def phaseFailed : String := "Failed"

/-! ### Download-Job builder (internal/resources/job.go)

BuildDownloadJob dispatches on the first populated source variant in the
fixed order huggingFace, s3, url, git and errors only when none is
populated. The per-source container command strings are opaque to every
claim, so the embedded Job records the chosen container image, which
identifies the selected branch. -/

structure DownloadJob where
  name : String
  ns : String
  image : String
deriving DecidableEq

def buildDownloadJob (m : Model) : Except String DownloadJob :=
  if (m.spec.source.huggingFace).isSome then
    .ok ⟨JobName m.name, m.ns, "python:3.11-slim"⟩
  else if (m.spec.source.s3).isSome then
    .ok ⟨JobName m.name, m.ns, "amazon/aws-cli:latest"⟩
  else if (m.spec.source.url).isSome then
    .ok ⟨JobName m.name, m.ns, "curlimages/curl:latest"⟩
  else if (m.spec.source.git).isSome then
    .ok ⟨JobName m.name, m.ns, "alpine/git:latest"⟩
  else
    .error ("no source specified in model " ++ m.name)

/-! ### Status writing (internal/controller, updateStatusWithProgress)

setStatusCondition models k8s.io/apimachinery meta.SetStatusCondition,
the library call the controller delegates to: when a condition of the same
type already exists and its boolean status equals the new one, the stored
LastTransitionTime is preserved; otherwise the new transition time is
taken. Reason, message and observed generation are always refreshed.
Condition types are unique within a condition list by construction. -/

def setStatusCondition (conds : List Condition) (nc : Condition) : List Condition :=
  match conds.find? (fun c => c.ctype == nc.ctype) with
  | none => conds ++ [nc]
  | some old =>
    let merged : Condition :=
      if old.cstatus == nc.cstatus then { nc with lastTransitionTime := old.lastTransitionTime }
      else nc
    conds.map (fun c => if c.ctype == nc.ctype then merged else c)

def requeueSecondsFor (phase : String) : Nat :=
  if phase = phasePending then 10
  else if phase = phaseDownloading then 15
  else if phase = phaseReady then 300
  else if phase = phaseFailed then 60
  else 0

/-- The Ready condition updateStatusWithProgress constructs for the new
phase: boolean status true only in phase Ready, with the phase-specific
reason code and a fresh transition time. -/
def readyConditionFor (now : Nat) (m : Model) (phase message : String) : Condition :=
  if phase = phaseReady then
    ⟨"Ready", true, "DownloadComplete", message, now, m.generation⟩
  else if phase = phaseFailed then
    ⟨"Ready", false, "DownloadFailed", message, now, m.generation⟩
  else
    ⟨"Ready", false, "InProgress", message, now, m.generation⟩

def updateStatusWithProgress (now : Nat) (m : Model) (phase message : String)
    (progress : Int) : ModelStatus × Nat :=
  let cond : Condition := readyConditionFor now m phase message
  let st : ModelStatus :=
    { phase := phase
      pvcName := PVCName m.name
      message := message
      progress := progress
      conditions := setStatusCondition m.status.conditions cond
      observedGeneration := m.generation }
  (st, requeueSecondsFor phase)

def updateStatus (now : Nat) (m : Model) (phase message : String) : ModelStatus × Nat :=
  updateStatusWithProgress now m phase message m.status.progress

/-! ### Reconciler (internal/controller/model_controller.go)

One reconcile pass is a pure function of the Model and a view of the
orchestrator state. Reads yield found / not-found / transient error;
creates either succeed or fail with an error text; a transient read error
is propagated to the caller (the Except error case) exactly as the Go code
returns the error to controller-runtime. Status writes are taken to
succeed, which is the regime every claim quantifies over. -/

inductive ReadResult (α : Type) where
  | found (a : α)
  | notFound
  | readErr (e : String)
deriving DecidableEq

structure JobCondition where
  ctype : String
  cstatus : String
  message : String
deriving DecidableEq

structure JobStatus where
  succeeded : Int
  failed : Int
  active : Int
  conditions : List JobCondition
deriving DecidableEq

structure ClusterView where
  pvcRead : ReadResult Unit
  jobRead : ReadResult JobStatus
  pvcCreate : Option String
  jobCreate : Option String
deriving DecidableEq

structure ReconcileOutcome where
  status : ModelStatus
  requeueSeconds : Nat
  createdPVC : Bool
  createdJob : Bool
deriving DecidableEq

/-- The Job half of reconcilePending: build the download Job (build
failure drives the phase to Failed), create it if absent (creation failure
keeps the phase Pending with a message), then transition to Downloading. -/
def pendingJobStep (now : Nat) (c : ClusterView) (m : Model) (createdPVC : Bool) :
    Except String ReconcileOutcome :=
  match buildDownloadJob m with
  | .error e =>
    let (st, rq) := updateStatus now m phaseFailed ("Failed to build download Job: " ++ e)
    .ok ⟨st, rq, createdPVC, false⟩
  | .ok _ =>
    match c.jobRead with
    | .readErr e => .error e
    | .notFound =>
      match c.jobCreate with
      | some e =>
        let (st, rq) := updateStatus now m phasePending ("Failed to create Job: " ++ e)
        .ok ⟨st, rq, createdPVC, false⟩
      | none =>
        let (st, rq) := updateStatus now m phaseDownloading "Download started"
        .ok ⟨st, rq, createdPVC, true⟩
    | .found _ =>
      let (st, rq) := updateStatus now m phaseDownloading "Download started"
      .ok ⟨st, rq, createdPVC, false⟩

def reconcilePending (now : Nat) (c : ClusterView) (m : Model) :
    Except String ReconcileOutcome :=
  match c.pvcRead with
  | .readErr e => .error e
  | .notFound =>
    match c.pvcCreate with
    | some e =>
      let (st, rq) := updateStatus now m phasePending ("Failed to create PVC: " ++ e)
      .ok ⟨st, rq, false, false⟩
    | none => pendingJobStep now c m true
  | .found _ => pendingJobStep now c m false

def activeMessage (j : JobStatus) : String :=
  if j.active > 0 then "Download in progress (active pods: " ++ toString j.active ++ ")"
  else "Download in progress"

def reconcileDownloading (now : Nat) (c : ClusterView) (m : Model) :
    Except String ReconcileOutcome :=
  match c.jobRead with
  | .readErr e => .error e
  | .notFound =>
    let (st, rq) := updateStatus now m phasePending "Job not found, recreating"
    .ok ⟨st, rq, false, false⟩
  | .found j =>
    if j.succeeded > 0 then
      let (st, rq) := updateStatusWithProgress now m phaseReady "Download complete" 100
      .ok ⟨st, rq, false, false⟩
    else
      match (if j.failed > 0 then
               j.conditions.find? (fun cd => cd.ctype == "Failed" && cd.cstatus == "True")
             else none) with
      | some cd =>
        let (st, rq) := updateStatus now m phaseFailed ("Download failed: " ++ cd.message)
        .ok ⟨st, rq, false, false⟩
      | none =>
        let st :=
          if m.status.pvcName = "" then
            { m.status with
                pvcName := PVCName m.name
                message := activeMessage j
                observedGeneration := m.generation }
          else m.status
        .ok ⟨st, 15, false, false⟩

def reconcileReady (now : Nat) (c : ClusterView) (m : Model) :
    Except String ReconcileOutcome :=
  match c.pvcRead with
  | .readErr e => .error e
  | .notFound =>
    let (st, rq) := updateStatus now m phasePending "PVC was deleted, recreating"
    .ok ⟨st, rq, false, false⟩
  | .found _ => .ok ⟨m.status, 300, false, false⟩

def reconcileFailed (now : Nat) (c : ClusterView) (m : Model) :
    Except String ReconcileOutcome :=
  match c.jobRead with
  | .readErr e => .error e
  | .notFound =>
    let (st, rq) := updateStatus now m phasePending "Retrying download"
    .ok ⟨st, rq, false, false⟩
  | .found _ => .ok ⟨m.status, 60, false, false⟩

/-- The phase switch of Reconcile: each of the four known phases
dispatches to its handler, any other phase is reset to Pending. -/
def reconcileDispatch (now : Nat) (c : ClusterView) (m : Model) (phase : String) :
    Except String ReconcileOutcome :=
  if phase = phasePending then reconcilePending now c m
  else if phase = phaseDownloading then reconcileDownloading now c m
  else if phase = phaseReady then reconcileReady now c m
  else if phase = phaseFailed then reconcileFailed now c m
  else
    let (st, rq) := updateStatus now m phasePending "Unknown phase, resetting"
    .ok ⟨st, rq, false, false⟩

/-- One reconcile pass over a Model that exists: an unset phase is treated
as Pending. -/
def reconcile (now : Nat) (c : ClusterView) (m : Model) :
    Except String ReconcileOutcome :=
  reconcileDispatch now c m (if m.status.phase = "" then phasePending else m.status.phase)

/-! ### Admission mutator (internal/webhook/pod_webhook.go)

Pods are embedded with the fields the mutator reads and writes: labels,
annotation map, volumes and containers. Annotation and label maps are
association lists with map semantics (lookup by key, overwrite on set). -/

structure EnvVar where
  name : String
  value : String
deriving DecidableEq

structure VolumeMount where
  name : String
  mountPath : String
  readOnly : Bool
deriving DecidableEq

/-- A pod volume as the mutator writes it: bound to a PVC claim name,
read-only at the volume-source level. -/
structure Volume where
  name : String
  claimName : String
  readOnly : Bool
deriving DecidableEq

structure Container where
  name : String
  mounts : List VolumeMount
  env : List EnvVar
deriving DecidableEq

structure Pod where
  labels : List (String × String)
  annots : List (String × String)
  volumes : List Volume
  containers : List Container
deriving DecidableEq

def lookupKV (kvs : List (String × String)) (k : String) : Option String :=
  (kvs.find? (fun p => p.fst == k)).map Prod.snd

def setKV (kvs : List (String × String)) (k v : String) : List (String × String) :=
  (k, v) :: kvs.filter (fun p => p.fst != k)

def annotInject : String := "models.main-currents.news/inject"
def annotMountPath : String := "models.main-currents.news/mount-path"
def annotReadOnly : String := "models.main-currents.news/read-only"
def annotContainer : String := "models.main-currents.news/container"
def annotInjectEnv : String := "models.main-currents.news/inject-env"
def labelInjected : String := "models.main-currents.news/injected"

structure InjOptions where
  mountPath : String
  readOnly : Bool
  containerName : String
  injectEnv : Bool
deriving DecidableEq

/-- parseOptions: read-only and env injection default to true and are
disabled only by the literal string value false. -/
def parseOptions (annots : List (String × String)) : InjOptions :=
  { mountPath := (lookupKV annots annotMountPath).getD ""
    readOnly :=
      match lookupKV annots annotReadOnly with
      | some v => v != "false"
      | none => true
    containerName := (lookupKV annots annotContainer).getD ""
    injectEnv :=
      match lookupKV annots annotInjectEnv with
      | some v => v != "false"
      | none => true }

/-- The mount-path resolution shared by injectVolumeMount and
injectEnvVars (the Go code repeats this block verbatim in both): empty
override yields the default path, an override containing the placeholder
has every occurrence substituted, an override not already ending in the
model name is treated as a base directory. -/
def resolveMountPath (override modelName : String) : String :=
  if override = "" then DefaultMountPath modelName
  else if containsS override "{name}" then replaceS override "{name}" modelName
  else if !(endsWithS override modelName) then trimSlash override ++ "/" ++ modelName
  else override

def injectVolume (pod : Pod) (m : Model) : Pod :=
  if pod.volumes.any (fun v => v.name == VolumeName m.name) then pod
  else { pod with volumes := pod.volumes ++ [⟨VolumeName m.name, PVCName m.name, true⟩] }

/-- The Go loop that locates a container by name, returning its index. -/
def findIdxL (p : Container → Bool) : List Container → Option Nat
  | [] => none
  | c :: rest => if p c then some 0 else (findIdxL p rest).map (· + 1)

def getCt (cts : List Container) (i : Nat) : Container :=
  cts.getD i ⟨"", [], []⟩

def modifyIdx (cts : List Container) (i : Nat) (f : Container → Container) : List Container :=
  match cts, i with
  | [], _ => []
  | c :: rest, 0 => f c :: rest
  | c :: rest, n + 1 => c :: modifyIdx rest n f

def quoteS (s : String) : String := "\"" ++ s ++ "\""

/-- The tail of injectVolumeMount once the target container index is
resolved: skip when a mount with the derived volume name already exists,
otherwise append the mount with the resolved path and read-only flag. -/
def injectMountAt (pod : Pod) (m : Model) (opts : InjOptions) (i : Nat) : Except String Pod :=
  if (getCt pod.containers i).mounts.any (fun mt => mt.name == VolumeName m.name) then .ok pod
  else
    .ok { pod with
            containers := modifyIdx pod.containers i (fun ct =>
              { ct with
                  mounts := ct.mounts ++
                    [⟨VolumeName m.name, resolveMountPath opts.mountPath m.name,
                      opts.readOnly⟩] }) }

def injectVolumeMount (pod : Pod) (m : Model) (opts : InjOptions) : Except String Pod :=
  if pod.containers.isEmpty then .error "pod has no containers"
  else if opts.containerName = "" then injectMountAt pod m opts 0
  else
    match findIdxL (fun ct => ct.name == opts.containerName) pod.containers with
    | some i => injectMountAt pod m opts i
    | none => .error ("container " ++ quoteS opts.containerName ++ " not found")

/-- The environment variables injectEnvVars assembles for a model given
the resolved mount path: name, mount path, version when set, and a
source-specific pair dispatched on the first populated variant in the
order huggingFace, s3, url. There is no git branch in the Go switch. -/
def envVarsFor (m : Model) (mp : String) : List EnvVar :=
  let pfx := envVarBase m.name
  let base : List EnvVar := [⟨pfx ++ "_NAME", m.name⟩, ⟨pfx ++ "_MOUNT_PATH", mp⟩]
  let withVersion :=
    if m.spec.version ≠ "" then base ++ [⟨pfx ++ "_VERSION", m.spec.version⟩] else base
  let sourceVars : List EnvVar :=
    match m.spec.source.huggingFace with
    | some hf => [⟨pfx ++ "_SOURCE_TYPE", "huggingface"⟩, ⟨pfx ++ "_REPO_ID", hf.repoID⟩]
    | none =>
      match m.spec.source.s3 with
      | some s3v => [⟨pfx ++ "_SOURCE_TYPE", "s3"⟩, ⟨pfx ++ "_BUCKET", s3v.bucket⟩]
      | none =>
        match m.spec.source.url with
        | some u => [⟨pfx ++ "_SOURCE_TYPE", "url"⟩, ⟨pfx ++ "_URL", u.url⟩]
        | none => []
  withVersion ++ sourceVars

/-- Target container index for env injection: an unknown container name
silently falls back to index 0 here (unlike the mount injection, which
rejects it first). -/
def envTargetIdx (pod : Pod) (opts : InjOptions) : Nat :=
  if opts.containerName = "" then 0
  else (findIdxL (fun ct => ct.name == opts.containerName) pod.containers).getD 0

def injectEnvVars (pod : Pod) (m : Model) (opts : InjOptions) : Except String Pod :=
  if pod.containers.isEmpty then .error "pod has no containers"
  else
    .ok { pod with
            containers := modifyIdx pod.containers (envTargetIdx pod opts) (fun ct =>
              { ct with
                  env := (envVarsFor m (resolveMountPath opts.mountPath m.name)).foldl
                    (fun acc v =>
                      if (ct.env.map (fun e0 => e0.name)).contains v.name then acc
                      else acc ++ [v])
                    ct.env }) }

inductive AdmissionResponse where
  | allowed (msg : String)
  | denied (msg : String)
  | patched (pod : Pod)
deriving DecidableEq

/-- The platform not-found error text cited inside the deny message. -/
def notFoundErr (name : String) : String :=
  "models.main-currents.news " ++ quoteS name ++ " not found"

/-- The per-model loop of Handle: blank entries are skipped, a missing or
non-Ready model denies the whole request, otherwise volume, mount and
(when enabled) environment variables are injected; after all names are
processed the idempotency marker label is stamped and the patched pod
returned. -/
def processNames (models : List Model) (reqNs : String) (opts : InjOptions) :
    List String → Pod → AdmissionResponse
  | [], pod => .patched { pod with labels := setKV pod.labels labelInjected "true" }
  | nm :: rest, pod =>
    if trimS nm = "" then processNames models reqNs opts rest pod
    else
      match models.find? (fun m => m.name == trimS nm && m.ns == reqNs) with
      | none =>
        .denied ("model " ++ quoteS (trimS nm) ++ " not found: " ++ notFoundErr (trimS nm))
      | some m =>
        if m.status.phase ≠ phaseReady then
          .denied ("model " ++ quoteS (trimS nm) ++ " is not ready (phase: " ++
            m.status.phase ++ ")")
        else
          match injectVolumeMount (injectVolume pod m) m opts with
          | .error e =>
            .denied ("failed to inject volume mount for model " ++ quoteS (trimS nm) ++
              ": " ++ e)
          | .ok p2 =>
            if opts.injectEnv then
              match injectEnvVars p2 m opts with
              | .error e =>
                .denied ("failed to inject env vars for model " ++ quoteS (trimS nm) ++
                  ": " ++ e)
              | .ok p3 => processNames models reqNs opts rest p3
            else processNames models reqNs opts rest p2

/-- Handle: the already-injected marker label short-circuits first, then a
missing or empty inject annotation allows the pod unchanged, otherwise the
comma-separated model list is processed. -/
def handle (models : List Model) (reqNs : String) (pod : Pod) : AdmissionResponse :=
  if lookupKV pod.labels labelInjected = some "true" then .allowed "already injected"
  else
    match lookupKV pod.annots annotInject with
    | none => .allowed "no injection requested"
    | some s =>
      if s = "" then .allowed "no injection requested"
      else processNames models reqNs (parseOptions pod.annots) (splitComma s) pod

/-! ### Shared test fixtures -/

def hfFix : HuggingFaceSource := ⟨"org/m", "main", [], []⟩

def s3Fix : S3Source := ⟨"my-bucket", "models/test", "", ""⟩

def gitFix : GitSource := ⟨"https://example.com/r.git", "main", none, none, [], []⟩

def emptyStatus : ModelStatus := ⟨"", "", "", 0, [], 0⟩

def mkModel (nm : String) (src : ModelSource) (st : ModelStatus) : Model :=
  ⟨nm, "default", 1, ⟨src, ⟨"standard", "1Gi", []⟩, "", "", []⟩, st⟩

/-- A cluster view in which both owned resources are absent and all
creates and reads succeed. -/
def allOkCluster : ClusterView := ⟨.notFound, .notFound, none, none⟩

/-- Number of populated variants of a source union. -/
def populatedCount (s : ModelSource) : Nat :=
  (if s.huggingFace.isSome then 1 else 0) + (if s.url.isSome then 1 else 0) +
    (if s.s3.isSome then 1 else 0) + (if s.git.isSome then 1 else 0)

/-! ### Basic lemmas about status writes and dispatch -/

theorem updateStatusWithProgress_phase (now : Nat) (m : Model) (ph msg : String) (pr : Int) :
    ((updateStatusWithProgress now m ph msg pr).1).phase = ph := rfl

theorem updateStatusWithProgress_pvcName (now : Nat) (m : Model) (ph msg : String) (pr : Int) :
    ((updateStatusWithProgress now m ph msg pr).1).pvcName = PVCName m.name := rfl

theorem updateStatusWithProgress_message (now : Nat) (m : Model) (ph msg : String) (pr : Int) :
    ((updateStatusWithProgress now m ph msg pr).1).message = msg := rfl

theorem updateStatus_phase (now : Nat) (m : Model) (ph msg : String) :
    ((updateStatus now m ph msg).1).phase = ph := rfl

theorem reconcile_eq_pending (now : Nat) (c : ClusterView) (m : Model)
    (h : m.status.phase = phasePending ∨ m.status.phase = "") :
    reconcile now c m = reconcilePending now c m := by
  rcases h with h | h <;> rw [reconcile, h] <;> rfl

theorem reconcile_eq_downloading (now : Nat) (c : ClusterView) (m : Model)
    (h : m.status.phase = phaseDownloading) :
    reconcile now c m = reconcileDownloading now c m := by
  rw [reconcile, h]; rfl

theorem reconcile_eq_ready (now : Nat) (c : ClusterView) (m : Model)
    (h : m.status.phase = phaseReady) :
    reconcile now c m = reconcileReady now c m := by
  rw [reconcile, h]; rfl

theorem reconcile_eq_failed (now : Nat) (c : ClusterView) (m : Model)
    (h : m.status.phase = phaseFailed) :
    reconcile now c m = reconcileFailed now c m := by
  rw [reconcile, h]; rfl

/-! ### Claim C9 -/

/-- C9: derived-name determinism. Storage-claim name, task name, volume
name, environment-variable base and default mount path are the stated
pure functions of the model name, bit-exact, and the two concrete examples
from the spec evaluate as stated. -/
theorem naming_determinism :
    (∀ n, PVCName n = "model-" ++ n) ∧
    (∀ n, JobName n = "model-download-" ++ n) ∧
    (∀ n, VolumeName n = PVCName n) ∧
    (∀ n, envVarBase n = "MODEL_" ++ replaceS (upperS n) "-" "_") ∧
    (∀ n, DefaultMountPath n = "/models/" ++ n) ∧
    PVCName "llama-3-8b" = "model-llama-3-8b" ∧
    envVarBase "Mistral-7B" = "MODEL_MISTRAL_7B" :=
  ⟨fun _ => rfl, fun _ => rfl, fun _ => rfl, fun _ => rfl, fun _ => rfl, rfl, rfl⟩

/-! ### Claim C1 -/

theorem buildDownloadJob_noSource (m : Model)
    (hhf : m.spec.source.huggingFace = none) (hs3 : m.spec.source.s3 = none)
    (hurl : m.spec.source.url = none) (hgit : m.spec.source.git = none) :
    buildDownloadJob m = .error ("no source specified in model " ++ m.name) := by
  simp [buildDownloadJob, hhf, hs3, hurl, hgit]

theorem buildDownloadJob_ok_of_some (m : Model)
    (h : m.spec.source.huggingFace.isSome = true ∨ m.spec.source.s3.isSome = true ∨
         m.spec.source.url.isSome = true ∨ m.spec.source.git.isSome = true) :
    ∃ j, buildDownloadJob m = .ok j := by
  unfold buildDownloadJob
  by_cases h1 : m.spec.source.huggingFace.isSome = true
  · simp [h1]
  · by_cases h2 : m.spec.source.s3.isSome = true
    · simp [h1, h2]
    · by_cases h3 : m.spec.source.url.isSome = true
      · simp [h1, h2, h3]
      · by_cases h4 : m.spec.source.git.isSome = true
        · simp [h1, h2, h3, h4]
        · rcases h with h | h | h | h <;> simp_all

/-- C1 counterexample: a source with two populated variants (huggingFace
and s3) is accepted by the builder, which picks the huggingFace branch,
and a reconcile pass from Pending creates the download Job and reaches
Downloading; the claim demands an error and phase Failed with no Job
created for every such source. -/
theorem multiVariant_source_builds_job :
    populatedCount (⟨some hfFix, none, some s3Fix, none⟩ : ModelSource) = 2 ∧
    buildDownloadJob
        (mkModel "m1" ⟨some hfFix, none, some s3Fix, none⟩
          { emptyStatus with phase := phasePending }) =
      .ok ⟨"model-download-m1", "default", "python:3.11-slim"⟩ ∧
    (reconcile 0 allOkCluster
        (mkModel "m1" ⟨some hfFix, none, some s3Fix, none⟩
          { emptyStatus with phase := phasePending })).toOption.map
        (fun o => (o.status.phase, o.createdJob)) =
      some (phaseDownloading, true) :=
  ⟨rfl, rfl, rfl⟩

theorem reconcilePending_noSource (now : Nat) (c : ClusterView) (m : Model)
    (hhf : m.spec.source.huggingFace = none) (hs3 : m.spec.source.s3 = none)
    (hurl : m.spec.source.url = none) (hgit : m.spec.source.git = none)
    (hpvc : c.pvcRead = .found () ∨ (c.pvcRead = .notFound ∧ c.pvcCreate = none)) :
    ∃ o, reconcilePending now c m = .ok o ∧ o.status.phase = phaseFailed ∧
      o.createdJob = false ∧
      o.status.message =
        "Failed to build download Job: " ++ ("no source specified in model " ++ m.name) := by
  have hb := buildDownloadJob_noSource m hhf hs3 hurl hgit
  rcases hpvc with h | ⟨h, h2⟩
  · simp only [reconcilePending, h, pendingJobStep, hb]
    exact ⟨_, rfl, rfl, rfl, rfl⟩
  · simp only [reconcilePending, h, h2, pendingJobStep, hb]
    exact ⟨_, rfl, rfl, rfl, rfl⟩

/-- C1 (amended): the builder fails exactly on zero-variant sources. With
no variant populated it returns the no-source error and a reconcile pass
from Pending (or unset phase) whose storage-claim step succeeds ends in
phase Failed without creating a Job; with at least one populated variant
it returns a Job (so a multi-variant source is accepted, the first
populated variant in the order huggingFace, s3, url, git winning). -/
theorem noSource_reconcile_fails :
    (∀ m : Model, m.spec.source.huggingFace = none → m.spec.source.s3 = none →
      m.spec.source.url = none → m.spec.source.git = none →
      buildDownloadJob m = .error ("no source specified in model " ++ m.name)) ∧
    (∀ m : Model, m.spec.source.huggingFace.isSome = true ∨ m.spec.source.s3.isSome = true ∨
      m.spec.source.url.isSome = true ∨ m.spec.source.git.isSome = true →
      ∃ j, buildDownloadJob m = .ok j) ∧
    (∀ (now : Nat) (c : ClusterView) (m : Model),
      m.spec.source.huggingFace = none → m.spec.source.s3 = none →
      m.spec.source.url = none → m.spec.source.git = none →
      (m.status.phase = phasePending ∨ m.status.phase = "") →
      (c.pvcRead = .found () ∨ (c.pvcRead = .notFound ∧ c.pvcCreate = none)) →
      ∃ o, reconcile now c m = .ok o ∧ o.status.phase = phaseFailed ∧
        o.createdJob = false) := by
  refine ⟨buildDownloadJob_noSource, buildDownloadJob_ok_of_some, ?_⟩
  intro now c m hhf hs3 hurl hgit hph hpvc
  rw [reconcile_eq_pending now c m hph]
  obtain ⟨o, ho, h1, h2, _⟩ := reconcilePending_noSource now c m hhf hs3 hurl hgit hpvc
  exact ⟨o, ho, h1, h2⟩

/-- C1 witness: the amended theorem applied to a concrete zero-variant
Model in phase Pending with an all-healthy cluster view. -/
theorem noSource_reconcile_fails_witness :
    ∃ o, reconcile 0 allOkCluster
        (mkModel "m2" ⟨none, none, none, none⟩ { emptyStatus with phase := phasePending }) =
      .ok o ∧ o.status.phase = phaseFailed ∧ o.createdJob = false :=
  noSource_reconcile_fails.2.2 0 allOkCluster
    (mkModel "m2" ⟨none, none, none, none⟩ { emptyStatus with phase := phasePending })
    rfl rfl rfl rfl (Or.inl rfl) (Or.inr ⟨rfl, rfl⟩)

/-! ### Claim C4 -/

theorem one_populated (s : ModelSource) (h : populatedCount s = 1) :
    s.huggingFace.isSome = true ∨ s.s3.isSome = true ∨
    s.url.isSome = true ∨ s.git.isSome = true := by
  by_contra hc
  push_neg at hc
  obtain ⟨h1, h2, h3, h4⟩ := hc
  simp only [Bool.not_eq_true] at h1 h2 h3 h4
  simp [populatedCount, h1, h2, h3, h4] at h

theorem pendingJobStep_downloading (now : Nat) (c : ClusterView) (m : Model) (b : Bool)
    (hb : ∃ j, buildDownloadJob m = .ok j)
    (hj : (∃ js, c.jobRead = .found js) ∨ (c.jobRead = .notFound ∧ c.jobCreate = none)) :
    ∃ o, pendingJobStep now c m b = .ok o ∧
      o.status = (updateStatus now m phaseDownloading "Download started").1 ∧
      o.requeueSeconds = 15 := by
  obtain ⟨j, hbj⟩ := hb
  rcases hj with ⟨js, h⟩ | ⟨h, h2⟩
  · simp only [pendingJobStep, hbj, h]
    exact ⟨_, rfl, rfl, rfl⟩
  · simp only [pendingJobStep, hbj, h, h2]
    exact ⟨_, rfl, rfl, rfl⟩

/-- C4: a Model with exactly one populated source variant and empty
observed status reaches phase Downloading in a single pass in which all
orchestrator reads and creates succeed; the stored PVC name is the derived
storage-claim name and the requeue delay is strictly positive. -/
theorem pending_reaches_downloading (now : Nat) (c : ClusterView) (m : Model)
    (hsrc : populatedCount m.spec.source = 1)
    (hst : m.status = emptyStatus)
    (hpvc : c.pvcRead = .found () ∨ (c.pvcRead = .notFound ∧ c.pvcCreate = none))
    (hjob : (∃ js, c.jobRead = .found js) ∨ (c.jobRead = .notFound ∧ c.jobCreate = none)) :
    ∃ o, reconcile now c m = .ok o ∧ o.status.phase = phaseDownloading ∧
      o.status.pvcName = PVCName m.name ∧ 0 < o.requeueSeconds := by
  have hph : m.status.phase = phasePending ∨ m.status.phase = "" := by
    rw [hst]; exact Or.inr rfl
  rw [reconcile_eq_pending now c m hph]
  have hb := buildDownloadJob_ok_of_some m (one_populated m.spec.source hsrc)
  rcases hpvc with h | ⟨h, h2⟩
  · simp only [reconcilePending, h]
    obtain ⟨o, ho, hs, hr⟩ := pendingJobStep_downloading now c m false hb hjob
    exact ⟨o, ho, by rw [hs]; rfl, by rw [hs]; rfl, by rw [hr]; norm_num⟩
  · simp only [reconcilePending, h, h2]
    obtain ⟨o, ho, hs, hr⟩ := pendingJobStep_downloading now c m true hb hjob
    exact ⟨o, ho, by rw [hs]; rfl, by rw [hs]; rfl, by rw [hr]; norm_num⟩

/-- C4 witness: concrete single-source Model with empty status and an
all-healthy cluster view. -/
theorem pending_reaches_downloading_witness :
    ∃ o, reconcile 0 allOkCluster (mkModel "m3" ⟨some hfFix, none, none, none⟩ emptyStatus) =
      .ok o ∧ o.status.phase = phaseDownloading ∧
      o.status.pvcName = PVCName "m3" ∧ 0 < o.requeueSeconds :=
  pending_reaches_downloading 0 allOkCluster
    (mkModel "m3" ⟨some hfFix, none, none, none⟩ emptyStatus)
    rfl rfl (Or.inr ⟨rfl, rfl⟩) (Or.inr ⟨rfl, rfl⟩)

/-! ### Claim C6 -/

def readyFixM : Model :=
  mkModel "m6" ⟨some hfFix, none, none, none⟩ ⟨phaseReady, "model-m6", "", 100, [], 1⟩

def failedFixM : Model :=
  mkModel "m7" ⟨some hfFix, none, none, none⟩ ⟨phaseFailed, "model-m7", "", 0, [], 1⟩

def jobFix : JobStatus := ⟨0, 1, 0, []⟩

/-- C6: recovery transitions. A Ready Model whose storage claim is gone
moves to Pending on the next pass and stays Ready (with the slow poll
interval and untouched status) while the claim exists; a Failed Model
whose download Job is gone moves to Pending and stays Failed (with the
medium interval and untouched status) while the Job exists. -/
theorem recovery_transitions :
    (∀ (now : Nat) (c : ClusterView) (m : Model), m.status.phase = phaseReady →
      c.pvcRead = .notFound →
      ∃ o, reconcile now c m = .ok o ∧ o.status.phase = phasePending ∧
        o.status.message = "PVC was deleted, recreating") ∧
    (∀ (now : Nat) (c : ClusterView) (m : Model), m.status.phase = phaseReady →
      c.pvcRead = .found () →
      reconcile now c m = .ok ⟨m.status, 300, false, false⟩) ∧
    (∀ (now : Nat) (c : ClusterView) (m : Model), m.status.phase = phaseFailed →
      c.jobRead = .notFound →
      ∃ o, reconcile now c m = .ok o ∧ o.status.phase = phasePending ∧
        o.status.message = "Retrying download") ∧
    (∀ (now : Nat) (c : ClusterView) (m : Model) (j : JobStatus),
      m.status.phase = phaseFailed → c.jobRead = .found j →
      reconcile now c m = .ok ⟨m.status, 60, false, false⟩) := by
  refine ⟨?_, ?_, ?_, ?_⟩
  · intro now c m hph hp
    rw [reconcile_eq_ready now c m hph]
    simp only [reconcileReady, hp]
    exact ⟨_, rfl, rfl, rfl⟩
  · intro now c m hph hp
    rw [reconcile_eq_ready now c m hph]
    simp only [reconcileReady, hp]
  · intro now c m hph hj
    rw [reconcile_eq_failed now c m hph]
    simp only [reconcileFailed, hj]
    exact ⟨_, rfl, rfl, rfl⟩
  · intro now c m j hph hj
    rw [reconcile_eq_failed now c m hph]
    simp only [reconcileFailed, hj]

/-- C6 witness: the four recovery clauses at concrete Ready and Failed
Models. -/
theorem recovery_transitions_witness :
    (∃ o, reconcile 0 ⟨.notFound, .notFound, none, none⟩ readyFixM = .ok o ∧
      o.status.phase = phasePending ∧ o.status.message = "PVC was deleted, recreating") ∧
    reconcile 0 ⟨.found (), .notFound, none, none⟩ readyFixM =
      .ok ⟨readyFixM.status, 300, false, false⟩ ∧
    (∃ o, reconcile 0 ⟨.notFound, .notFound, none, none⟩ failedFixM = .ok o ∧
      o.status.phase = phasePending ∧ o.status.message = "Retrying download") ∧
    reconcile 0 ⟨.notFound, .found jobFix, none, none⟩ failedFixM =
      .ok ⟨failedFixM.status, 60, false, false⟩ :=
  ⟨recovery_transitions.1 0 _ readyFixM rfl rfl,
   recovery_transitions.2.1 0 _ readyFixM rfl rfl,
   recovery_transitions.2.2.1 0 _ failedFixM rfl rfl,
   recovery_transitions.2.2.2 0 _ failedFixM jobFix rfl rfl⟩

/-! ### Claim C10 -/

theorem reconcileDispatch_unknown (now : Nat) (c : ClusterView) (m : Model) (ph : String)
    (h0 : ph ≠ phasePending) (h1 : ph ≠ phaseDownloading)
    (h2 : ph ≠ phaseReady) (h3 : ph ≠ phaseFailed) :
    reconcileDispatch now c m ph =
      .ok ⟨(updateStatus now m phasePending "Unknown phase, resetting").1, 10, false, false⟩ := by
  simp only [reconcileDispatch, if_neg h0, if_neg h1, if_neg h2, if_neg h3]
  rfl

theorem pendingJobStep_phases (now : Nat) (c : ClusterView) (m : Model) (b : Bool)
    (o : ReconcileOutcome) (h : pendingJobStep now c m b = .ok o) :
    o.status.phase = phasePending ∨ o.status.phase = phaseDownloading ∨
    o.status.phase = phaseFailed := by
  unfold pendingJobStep at h
  split at h
  · cases h
    exact Or.inr (Or.inr rfl)
  · split at h
    · simp at h
    · split at h
      · cases h
        exact Or.inl rfl
      · cases h
        exact Or.inr (Or.inl rfl)
    · cases h
      exact Or.inr (Or.inl rfl)

theorem reconcilePending_phases (now : Nat) (c : ClusterView) (m : Model)
    (o : ReconcileOutcome) (h : reconcilePending now c m = .ok o) :
    o.status.phase = phasePending ∨ o.status.phase = phaseDownloading ∨
    o.status.phase = phaseFailed := by
  unfold reconcilePending at h
  split at h
  · simp at h
  · split at h
    · cases h
      exact Or.inl rfl
    · exact pendingJobStep_phases now c m true o h
  · exact pendingJobStep_phases now c m false o h

theorem reconcileDownloading_phases (now : Nat) (c : ClusterView) (m : Model)
    (o : ReconcileOutcome) (h : reconcileDownloading now c m = .ok o) :
    o.status.phase = phasePending ∨ o.status.phase = phaseReady ∨
    o.status.phase = phaseFailed ∨ o.status.phase = m.status.phase := by
  unfold reconcileDownloading at h
  split at h
  · simp at h
  · cases h
    exact Or.inl rfl
  · split at h
    · cases h
      exact Or.inr (Or.inl rfl)
    · split at h
      · cases h
        exact Or.inr (Or.inr (Or.inl rfl))
      · cases h
        refine Or.inr (Or.inr (Or.inr ?_))
        split <;> rfl

theorem reconcileReady_phases (now : Nat) (c : ClusterView) (m : Model)
    (o : ReconcileOutcome) (h : reconcileReady now c m = .ok o) :
    o.status.phase = phasePending ∨ o.status.phase = m.status.phase := by
  unfold reconcileReady at h
  split at h
  · simp at h
  · cases h
    exact Or.inl rfl
  · cases h
    exact Or.inr rfl

theorem reconcileFailed_phases (now : Nat) (c : ClusterView) (m : Model)
    (o : ReconcileOutcome) (h : reconcileFailed now c m = .ok o) :
    o.status.phase = phasePending ∨ o.status.phase = m.status.phase := by
  unfold reconcileFailed at h
  split at h
  · simp at h
  · cases h
    exact Or.inl rfl
  · cases h
    exact Or.inr rfl

theorem reconcileDispatch_phases (now : Nat) (c : ClusterView) (m : Model) (ph : String)
    (o : ReconcileOutcome) (h : reconcileDispatch now c m ph = .ok o)
    (hm : ph = m.status.phase ∨ ph = phasePending) :
    o.status.phase = phasePending ∨ o.status.phase = phaseDownloading ∨
    o.status.phase = phaseReady ∨ o.status.phase = phaseFailed := by
  unfold reconcileDispatch at h
  split at h
  · exact Or.elim3 (reconcilePending_phases now c m o h)
      Or.inl (fun x => Or.inr (Or.inl x)) (fun x => Or.inr (Or.inr (Or.inr x)))
  · rename_i hc0
    split at h
    · rename_i hc1
      rcases reconcileDownloading_phases now c m o h with h1 | h1 | h1 | h1
      · exact Or.inl h1
      · exact Or.inr (Or.inr (Or.inl h1))
      · exact Or.inr (Or.inr (Or.inr h1))
      · refine Or.inr (Or.inl ?_)
        rcases hm with hm | hm
        · rw [h1, ← hm, hc1]
        · rw [hm] at hc1
          exact absurd hc1 (by decide)
    · rename_i hc1
      split at h
      · rename_i hc2
        rcases reconcileReady_phases now c m o h with h1 | h1
        · exact Or.inl h1
        · refine Or.inr (Or.inr (Or.inl ?_))
          rcases hm with hm | hm
          · rw [h1, ← hm, hc2]
          · rw [hm] at hc2
            exact absurd hc2 (by decide)
      · rename_i hc2
        split at h
        · rename_i hc3
          rcases reconcileFailed_phases now c m o h with h1 | h1
          · exact Or.inl h1
          · refine Or.inr (Or.inr (Or.inr ?_))
            rcases hm with hm | hm
            · rw [h1, ← hm, hc3]
            · rw [hm] at hc3
              exact absurd hc3 (by decide)
        · rename_i hc3
          cases h
          exact Or.inl rfl

/-- C10: any phase string outside the four enum values (and not the unset
empty string) is reset to Pending by one pass, and every successful pass
leaves the stored phase at one of the four enum values. -/
theorem phase_invariant :
    (∀ (now : Nat) (c : ClusterView) (m : Model),
      m.status.phase ≠ "" → m.status.phase ≠ phasePending →
      m.status.phase ≠ phaseDownloading → m.status.phase ≠ phaseReady →
      m.status.phase ≠ phaseFailed →
      reconcile now c m =
        .ok ⟨(updateStatus now m phasePending "Unknown phase, resetting").1, 10, false, false⟩ ∧
      ((updateStatus now m phasePending "Unknown phase, resetting").1).phase = phasePending ∧
      ((updateStatus now m phasePending "Unknown phase, resetting").1).message =
        "Unknown phase, resetting") ∧
    (∀ (now : Nat) (c : ClusterView) (m : Model) (o : ReconcileOutcome),
      reconcile now c m = .ok o →
      o.status.phase = phasePending ∨ o.status.phase = phaseDownloading ∨
      o.status.phase = phaseReady ∨ o.status.phase = phaseFailed) := by
  constructor
  · intro now c m he h0 h1 h2 h3
    have hif : (if m.status.phase = "" then phasePending else m.status.phase) = m.status.phase :=
      if_neg he
    rw [reconcile, hif]
    exact ⟨reconcileDispatch_unknown now c m m.status.phase h0 h1 h2 h3, rfl, rfl⟩
  · intro now c m o h
    rw [reconcile] at h
    by_cases he : m.status.phase = ""
    · rw [if_pos he] at h
      exact reconcileDispatch_phases now c m phasePending o h (Or.inr rfl)
    · rw [if_neg he] at h
      exact reconcileDispatch_phases now c m m.status.phase o h (Or.inl rfl)

/-- C10 witness: a concrete Model with stored phase Bogus is reset to
Pending and the resulting phase is among the four enum values. -/
theorem phase_invariant_witness :
    reconcile 0 allOkCluster
        (mkModel "m5" ⟨some hfFix, none, none, none⟩ { emptyStatus with phase := "Bogus" }) =
      .ok ⟨(updateStatus 0
              (mkModel "m5" ⟨some hfFix, none, none, none⟩ { emptyStatus with phase := "Bogus" })
              phasePending "Unknown phase, resetting").1, 10, false, false⟩ ∧
    ((updateStatus 0
        (mkModel "m5" ⟨some hfFix, none, none, none⟩ { emptyStatus with phase := "Bogus" })
        phasePending "Unknown phase, resetting").1).phase = phasePending :=
  have h := phase_invariant.1 0 allOkCluster
    (mkModel "m5" ⟨some hfFix, none, none, none⟩ { emptyStatus with phase := "Bogus" })
    (by decide) (by decide) (by decide) (by decide) (by decide)
  ⟨h.1, h.2.1⟩

/-! ### Claim C3 -/

def dlFixM : Model :=
  mkModel "dl" ⟨some hfFix, none, none, none⟩
    ⟨phaseDownloading, "model-dl", "Download started", 0, [], 1⟩

def failedCondJob : JobStatus := ⟨0, 0, 0, [⟨"Failed", "True", "boom"⟩]⟩

def c3Cluster : ClusterView := ⟨.notFound, .found failedCondJob, none, none⟩

/-- C3 counterexample: a download Job carrying a JobFailed condition with
status True but a zero failure count leaves the Model in Downloading (the
code gates the condition scan behind a positive failure count), while the
claim demands phase Failed whenever the failed condition is present. -/
theorem downloading_failedCond_ignored :
    failedCondJob.conditions.find? (fun k => k.ctype == "Failed" && k.cstatus == "True") =
      some ⟨"Failed", "True", "boom"⟩ ∧
    (reconcile 0 c3Cluster dlFixM).toOption.map
        (fun o => (o.status.phase, o.status.message)) =
      some (phaseDownloading, "Download started") ∧
    phaseDownloading ≠ phaseFailed :=
  ⟨rfl, rfl, by decide⟩

/-- C3 (amended): monitoring a Downloading Model behaves as follows. A
missing Job resets to Pending; a positive success count yields Ready with
progress 100; a positive failure count together with a JobFailed condition
of status True yields Failed with the condition message embedded in the
status message; otherwise the pass returns the stored status unchanged
(updating the message to the active-pod text only when the stored PVC name
is empty) with the fifteen-second Downloading requeue interval. -/
theorem reconcileDownloading_spec :
    (∀ (now : Nat) (c : ClusterView) (m : Model), c.jobRead = .notFound →
      ∃ o, reconcileDownloading now c m = .ok o ∧ o.status.phase = phasePending ∧
        o.status.message = "Job not found, recreating") ∧
    (∀ (now : Nat) (c : ClusterView) (m : Model) (j : JobStatus), c.jobRead = .found j →
      0 < j.succeeded →
      ∃ o, reconcileDownloading now c m = .ok o ∧ o.status.phase = phaseReady ∧
        o.status.progress = 100 ∧ o.status.message = "Download complete") ∧
    (∀ (now : Nat) (c : ClusterView) (m : Model) (j : JobStatus) (cd : JobCondition),
      c.jobRead = .found j → j.succeeded ≤ 0 → 0 < j.failed →
      j.conditions.find? (fun k => k.ctype == "Failed" && k.cstatus == "True") = some cd →
      ∃ o, reconcileDownloading now c m = .ok o ∧ o.status.phase = phaseFailed ∧
        o.status.message = "Download failed: " ++ cd.message) ∧
    (∀ (now : Nat) (c : ClusterView) (m : Model) (j : JobStatus), c.jobRead = .found j →
      j.succeeded ≤ 0 →
      (j.failed ≤ 0 ∨
        j.conditions.find? (fun k => k.ctype == "Failed" && k.cstatus == "True") = none) →
      reconcileDownloading now c m =
        .ok ⟨(if m.status.pvcName = "" then
                { m.status with
                    pvcName := PVCName m.name
                    message := activeMessage j
                    observedGeneration := m.generation }
              else m.status), 15, false, false⟩) := by
  refine ⟨?_, ?_, ?_, ?_⟩
  · intro now c m hj
    simp only [reconcileDownloading, hj]
    exact ⟨_, rfl, rfl, rfl⟩
  · intro now c m j hj hs
    simp only [reconcileDownloading, hj, if_pos hs]
    exact ⟨_, rfl, rfl, rfl, rfl⟩
  · intro now c m j cd hj hs hf hfind
    simp only [reconcileDownloading, hj, if_neg (not_lt.mpr hs), if_pos hf, hfind]
    exact ⟨_, rfl, rfl, rfl⟩
  · intro now c m j hj hs hnone
    have hmatch : (if 0 < j.failed then
        j.conditions.find? (fun k => k.ctype == "Failed" && k.cstatus == "True")
      else none) = none := by
      rcases hnone with h | h
      · rw [if_neg (not_lt.mpr h)]
      · split
        · exact h
        · rfl
    simp only [reconcileDownloading, hj, if_neg (not_lt.mpr hs), hmatch]

/-- C3 witness: the four monitoring clauses at concrete Job states. -/
theorem reconcileDownloading_spec_witness :
    (∃ o, reconcileDownloading 0 ⟨.notFound, .notFound, none, none⟩ dlFixM = .ok o ∧
      o.status.phase = phasePending ∧ o.status.message = "Job not found, recreating") ∧
    (∃ o, reconcileDownloading 0 ⟨.notFound, .found ⟨1, 0, 0, []⟩, none, none⟩ dlFixM = .ok o ∧
      o.status.phase = phaseReady ∧ o.status.progress = 100 ∧
      o.status.message = "Download complete") ∧
    (∃ o, reconcileDownloading 0
        ⟨.notFound, .found ⟨0, 1, 0, [⟨"Failed", "True", "boom"⟩]⟩, none, none⟩ dlFixM = .ok o ∧
      o.status.phase = phaseFailed ∧
      o.status.message = "Download failed: " ++ "boom") ∧
    reconcileDownloading 0 c3Cluster dlFixM = .ok ⟨dlFixM.status, 15, false, false⟩ :=
  ⟨reconcileDownloading_spec.1 0 _ dlFixM rfl,
   reconcileDownloading_spec.2.1 0 _ dlFixM ⟨1, 0, 0, []⟩ rfl (by decide),
   reconcileDownloading_spec.2.2.1 0 _ dlFixM ⟨0, 1, 0, [⟨"Failed", "True", "boom"⟩]⟩
     ⟨"Failed", "True", "boom"⟩ rfl (by decide) (by decide) rfl,
   reconcileDownloading_spec.2.2.2 0 c3Cluster dlFixM failedCondJob rfl (by decide)
     (Or.inl (by decide))⟩

/-! ### Claim C5 -/

def findReady (conds : List Condition) : Option Condition :=
  conds.find? (fun c => c.ctype == "Ready")

theorem readyConditionFor_ctype (now : Nat) (m : Model) (ph msg : String) :
    (readyConditionFor now m ph msg).ctype = "Ready" := by
  unfold readyConditionFor
  split
  · rfl
  · split <;> rfl

theorem readyConditionFor_cstatus (now : Nat) (m : Model) (ph msg : String) :
    (readyConditionFor now m ph msg).cstatus = decide (ph = phaseReady) := by
  unfold readyConditionFor
  split
  · rename_i h
    simp [h]
  · rename_i h
    split <;> simp [h]

theorem readyConditionFor_ltt (now : Nat) (m : Model) (ph msg : String) :
    (readyConditionFor now m ph msg).lastTransitionTime = now := by
  unfold readyConditionFor
  split
  · rfl
  · split <;> rfl

theorem find?_append_single {α : Type} (l : List α) (p : α → Bool) (x : α)
    (h : l.find? p = none) (hx : p x = true) : (l ++ [x]).find? p = some x := by
  induction l with
  | nil => simp [List.find?_cons, hx]
  | cons c rest ih =>
    cases hp : p c with
    | true =>
      rw [List.find?_cons_of_pos _ hp] at h
      exact absurd h (by simp)
    | false =>
      rw [List.find?_cons_of_neg _ (by simp [hp])] at h
      rw [List.cons_append, List.find?_cons_of_neg _ (by simp [hp])]
      exact ih h

theorem find?_map_replace (conds : List Condition) (t : String) (merged : Condition)
    (old : Condition) (h : conds.find? (fun c => c.ctype == t) = some old)
    (hm : merged.ctype = t) :
    (conds.map (fun c => if c.ctype == t then merged else c)).find?
        (fun c => c.ctype == t) = some merged := by
  induction conds with
  | nil => simp at h
  | cons c rest ih =>
    cases hp : (c.ctype == t) with
    | true =>
      rw [List.map_cons, if_pos hp, List.find?_cons_of_pos _ (by simp [hm])]
    | false =>
      rw [List.find?_cons_of_neg _ (by simp [hp])] at h
      rw [List.map_cons, if_neg (by simp [hp]), List.find?_cons_of_neg _ (by simp [hp])]
      exact ih h

/-- The Ready condition stored after one status write: a fresh condition
when none existed, otherwise the new condition with the old transition
time kept exactly when the boolean status is unchanged. -/
def condAfter (now : Nat) (m : Model) (ph msg : String) : Condition :=
  match findReady m.status.conditions with
  | none => readyConditionFor now m ph msg
  | some old =>
    if old.cstatus == (readyConditionFor now m ph msg).cstatus then
      { readyConditionFor now m ph msg with lastTransitionTime := old.lastTransitionTime }
    else readyConditionFor now m ph msg

theorem updateStatusWithProgress_conditions (now : Nat) (m : Model) (ph msg : String)
    (pr : Int) :
    ((updateStatusWithProgress now m ph msg pr).1).conditions =
      setStatusCondition m.status.conditions (readyConditionFor now m ph msg) := rfl

theorem findReady_update (now : Nat) (m : Model) (ph msg : String) (pr : Int) :
    findReady ((updateStatusWithProgress now m ph msg pr).1).conditions =
      some (condAfter now m ph msg) := by
  rw [updateStatusWithProgress_conditions]
  unfold condAfter setStatusCondition
  unfold findReady
  simp only [readyConditionFor_ctype]
  cases hro : m.status.conditions.find? (fun c => c.ctype == "Ready") with
  | none =>
    simp only [hro]
    exact find?_append_single m.status.conditions (fun c => c.ctype == "Ready")
      (readyConditionFor now m ph msg) hro (by simp [readyConditionFor_ctype])
  | some old =>
    simp only [hro]
    exact find?_map_replace m.status.conditions "Ready"
      (if old.cstatus == (readyConditionFor now m ph msg).cstatus then
        { ctype := "Ready"
          cstatus := (readyConditionFor now m ph msg).cstatus
          reason := (readyConditionFor now m ph msg).reason
          message := (readyConditionFor now m ph msg).message
          lastTransitionTime := old.lastTransitionTime
          observedGeneration := (readyConditionFor now m ph msg).observedGeneration }
      else readyConditionFor now m ph msg) old hro
      (by split
          · rfl
          · exact readyConditionFor_ctype now m ph msg)

theorem condAfter_of_some (now : Nat) (m : Model) (ph msg : String) (old : Condition)
    (h : findReady m.status.conditions = some old) :
    condAfter now m ph msg =
      if old.cstatus == decide (ph = phaseReady) then
        { readyConditionFor now m ph msg with lastTransitionTime := old.lastTransitionTime }
      else readyConditionFor now m ph msg := by
  simp only [condAfter, h, readyConditionFor_cstatus]

theorem condAfter_of_none (now : Nat) (m : Model) (ph msg : String)
    (h : findReady m.status.conditions = none) :
    condAfter now m ph msg = readyConditionFor now m ph msg := by
  simp only [condAfter, h]

theorem condAfter_cstatus (now : Nat) (m : Model) (ph msg : String) :
    (condAfter now m ph msg).cstatus = decide (ph = phaseReady) := by
  cases h : findReady m.status.conditions with
  | none =>
    rw [condAfter_of_none now m ph msg h]
    exact readyConditionFor_cstatus now m ph msg
  | some old =>
    rw [condAfter_of_some now m ph msg old h]
    split
    · exact readyConditionFor_cstatus now m ph msg
    · exact readyConditionFor_cstatus now m ph msg

theorem condAfter_ctype (now : Nat) (m : Model) (ph msg : String) :
    (condAfter now m ph msg).ctype = "Ready" := by
  cases h : findReady m.status.conditions with
  | none =>
    rw [condAfter_of_none now m ph msg h]
    exact readyConditionFor_ctype now m ph msg
  | some old =>
    rw [condAfter_of_some now m ph msg old h]
    split
    · exact readyConditionFor_ctype now m ph msg
    · exact readyConditionFor_ctype now m ph msg

/-- C5: every status write stores a condition of type Ready whose boolean
status is true exactly when the written phase is Ready; the stored
transition time is the old one exactly when the boolean status is
unchanged (and the current clock when it flips or no condition existed);
consequently two consecutive writes with the same boolean status keep the
first write transition timestamp. -/
theorem ready_condition_transition :
    (∀ (now : Nat) (m : Model) (ph msg : String) (pr : Int),
      findReady ((updateStatusWithProgress now m ph msg pr).1).conditions =
        some (condAfter now m ph msg) ∧
      (condAfter now m ph msg).ctype = "Ready" ∧
      ((condAfter now m ph msg).cstatus = true ↔ ph = phaseReady) ∧
      (findReady m.status.conditions = none →
        (condAfter now m ph msg).lastTransitionTime = now) ∧
      (∀ old, findReady m.status.conditions = some old →
        (old.cstatus = (condAfter now m ph msg).cstatus →
          (condAfter now m ph msg).lastTransitionTime = old.lastTransitionTime) ∧
        (old.cstatus ≠ (condAfter now m ph msg).cstatus →
          (condAfter now m ph msg).lastTransitionTime = now))) ∧
    (∀ (now1 now2 : Nat) (m : Model) (ph1 ph2 msg1 msg2 : String) (pr1 : Int),
      (ph1 = phaseReady ↔ ph2 = phaseReady) →
      (condAfter now2 { m with status := (updateStatusWithProgress now1 m ph1 msg1 pr1).1 }
          ph2 msg2).lastTransitionTime =
        (condAfter now1 m ph1 msg1).lastTransitionTime) := by
  constructor
  · intro now m ph msg pr
    refine ⟨findReady_update now m ph msg pr, condAfter_ctype now m ph msg, ?_, ?_, ?_⟩
    · rw [condAfter_cstatus]
      simp
    · intro h
      rw [condAfter_of_none now m ph msg h]
      exact readyConditionFor_ltt now m ph msg
    · intro old h
      have hme := condAfter_of_some now m ph msg old h
      have hcs := condAfter_cstatus now m ph msg
      constructor
      · intro hsame
        rw [hcs] at hsame
        rw [hme, if_pos (by simp [hsame])]
      · intro hdiff
        rw [hcs] at hdiff
        rw [hme, if_neg (by simp [hdiff])]
        exact readyConditionFor_ltt now m ph msg
  · intro now1 now2 m ph1 ph2 msg1 msg2 pr1 hiff
    have hm2 : findReady ({ m with
        status := (updateStatusWithProgress now1 m ph1 msg1 pr1).1 } : Model).status.conditions =
        some (condAfter now1 m ph1 msg1) := findReady_update now1 m ph1 msg1 pr1
    rw [condAfter_of_some now2 _ ph2 msg2 _ hm2]
    have hcs : (condAfter now1 m ph1 msg1).cstatus = decide (ph2 = phaseReady) := by
      rw [condAfter_cstatus]
      exact decide_eq_decide.mpr hiff
    rw [if_pos (by simp [hcs])]

/-- C5 witness: a first write in phase Ready at clock 7 followed by a
second write in phase Ready at clock 9 keeps the stored transition time;
a write over a condition-free status takes the current clock. -/
theorem ready_condition_transition_witness :
    ((condAfter 7 readyFixM phaseReady "ok").cstatus = true ↔ phaseReady = phaseReady) ∧
    (condAfter 9 { readyFixM with
        status := (updateStatusWithProgress 7 readyFixM phaseReady "ok" 100).1 }
      phaseReady "again").lastTransitionTime =
      (condAfter 7 readyFixM phaseReady "ok").lastTransitionTime ∧
    (condAfter 3 readyFixM phaseReady "first").lastTransitionTime = 3 :=
  ⟨(ready_condition_transition.1 7 readyFixM phaseReady "ok" 100).2.2.1,
   ready_condition_transition.2 7 9 readyFixM phaseReady phaseReady "ok" "again" 100 Iff.rfl,
   (ready_condition_transition.1 3 readyFixM phaseReady "first" 100).2.2.2.1 rfl⟩

/-! ### Claim C2 -/

theorem findIdxL_lt (p : Container → Bool) :
    ∀ (l : List Container) (i : Nat), findIdxL p l = some i → i < l.length := by
  intro l
  induction l with
  | nil =>
    intro i h
    simp [findIdxL] at h
  | cons c rest ih =>
    intro i h
    unfold findIdxL at h
    split at h
    · cases h
      simp
    · cases hf : findIdxL p rest with
      | none =>
        rw [hf] at h
        simp at h
      | some k =>
        rw [hf] at h
        simp only [Option.map_some'] at h
        cases h
        exact Nat.succ_lt_succ (ih k hf)

theorem getCt_modifyIdx (l : List Container) (i : Nat) (f : Container → Container)
    (h : i < l.length) : getCt (modifyIdx l i f) i = f (getCt l i) := by
  induction l generalizing i with
  | nil => simp at h
  | cons c rest ih =>
    cases i with
    | zero => rfl
    | succ n =>
      have hn : n < rest.length := Nat.lt_of_succ_lt_succ h
      show getCt (c :: modifyIdx rest n f) (n + 1) = f (getCt (c :: rest) (n + 1))
      simp only [getCt, List.getD_cons_succ]
      exact ih n hn

theorem modifyIdx_length (l : List Container) (i : Nat) (f : Container → Container) :
    (modifyIdx l i f).length = l.length := by
  induction l generalizing i with
  | nil => rfl
  | cons c rest ih =>
    cases i with
    | zero => rfl
    | succ n => simp [modifyIdx, ih n]

theorem foldl_append_fresh (q : EnvVar → Bool) :
    ∀ (vars acc : List EnvVar),
      vars.foldl (fun acc v => if q v then acc else acc ++ [v]) acc =
        acc ++ vars.filter (fun v => !q v) := by
  intro vars
  induction vars with
  | nil =>
    intro acc
    simp
  | cons v rest ih =>
    intro acc
    rw [List.foldl_cons, List.filter_cons]
    cases h : q v with
    | true => simp [h, ih]
    | false => simp [h, ih, List.append_assoc]

/-- The mount-path rule in the order the claim states it: an explicit
override containing the placeholder has every occurrence substituted; an
override already ending in the model name is kept; any other override is
treated as a base directory with the model name path-joined (one trailing
slash trimmed); no override yields the default path. Stated from the
claim words for comparison with resolveMountPath. -/
def specMountPath (override nm : String) : String :=
  if override = "" then "/models/" ++ nm
  else if containsS override "{name}" then replaceS override "{name}" nm
  else if endsWithS override nm then override
  else trimSlash override ++ "/" ++ nm

theorem resolveMountPath_eq_spec (o n : String) :
    resolveMountPath o n = specMountPath o n := by
  unfold resolveMountPath specMountPath DefaultMountPath
  by_cases h1 : o = ""
  · simp [h1]
  · rw [if_neg h1, if_neg h1]
    by_cases h2 : containsS o "{name}" = true
    · rw [if_pos h2, if_pos h2]
    · rw [if_neg h2, if_neg h2]
      by_cases h3 : endsWithS o n = true
      · rw [if_pos h3]
        simp [h3]
      · rw [if_neg h3]
        rw [Bool.not_eq_true] at h3
        simp [h3]

theorem envTargetIdx_lt (pod : Pod) (opts : InjOptions) (h : pod.containers ≠ []) :
    envTargetIdx pod opts < pod.containers.length := by
  have hl : 0 < pod.containers.length := List.length_pos.mpr h
  unfold envTargetIdx
  split
  · exact hl
  · cases hf : findIdxL (fun ct => ct.name == opts.containerName) pod.containers with
    | none => simpa using hl
    | some i => simpa using findIdxL_lt _ pod.containers i hf

/-- The always-injected variables as the claim lists them: name, mount
path, and version exactly when the spec version is non-empty. -/
def envBaseList (m : Model) (mp : String) : List EnvVar :=
  [⟨envVarBase m.name ++ "_NAME", m.name⟩, ⟨envVarBase m.name ++ "_MOUNT_PATH", mp⟩] ++
    (if m.spec.version ≠ "" then [⟨envVarBase m.name ++ "_VERSION", m.spec.version⟩] else [])

def gitModelFix : Model :=
  mkModel "gm" ⟨none, none, none, some gitFix⟩ ⟨phaseReady, "model-gm", "", 100, [], 1⟩

def hfModelFix : Model :=
  mkModel "hfm" ⟨some hfFix, none, none, none⟩ ⟨phaseReady, "model-hfm", "", 100, [], 1⟩

def onePodFix : Pod := ⟨[], [], [], [⟨"main", [], []⟩]⟩

def defaultOptsFix : InjOptions := ⟨"", true, "", true⟩

/-- C2 counterexample: a Ready model whose source is the git variant gets
only the name and mount-path variables injected: the source-type pair is
absent because the env-var switch has no git branch, while the claim
demands one source-specific pair for each of the four source kinds. -/
theorem gitSource_env_missing_sourceType :
    (injectEnvVars onePodFix gitModelFix defaultOptsFix).toOption.map
        (fun p => (getCt p.containers 0).env.map (fun v => v.name)) =
      some ["MODEL_GM_NAME", "MODEL_GM_MOUNT_PATH"] ∧
    (["MODEL_GM_NAME", "MODEL_GM_MOUNT_PATH"] : List String).contains "MODEL_GM_SOURCE_TYPE" =
      false :=
  ⟨rfl, rfl⟩

/-- C2 (amended): the resolved mount path follows the three-branch rule,
and the environment variables appended to the target container (skipping
names already present) are exactly the name and mount-path pair, the
version when non-empty, and a source-specific pair for the huggingface,
s3 and url kinds (first populated wins in that order); a source with none
of those three populated, in particular a git source, gets no
source-specific pair. -/
theorem injectEnvVars_spec :
    (∀ o n, resolveMountPath o n = specMountPath o n) ∧
    (∀ (pod : Pod) (m : Model) (opts : InjOptions), pod.containers ≠ [] →
      ∃ p, injectEnvVars pod m opts = .ok p ∧
        p.labels = pod.labels ∧ p.annots = pod.annots ∧ p.volumes = pod.volumes ∧
        p.containers.length = pod.containers.length ∧
        (getCt p.containers (envTargetIdx pod opts)).env =
          (getCt pod.containers (envTargetIdx pod opts)).env ++
            (envVarsFor m (specMountPath opts.mountPath m.name)).filter
              (fun v =>
                !(((getCt pod.containers (envTargetIdx pod opts)).env.map
                    (fun e0 => e0.name)).contains v.name))) ∧
    (∀ (m : Model) (mp : String) (hf : HuggingFaceSource),
      m.spec.source.huggingFace = some hf →
      envVarsFor m mp = envBaseList m mp ++
        [⟨envVarBase m.name ++ "_SOURCE_TYPE", "huggingface"⟩,
         ⟨envVarBase m.name ++ "_REPO_ID", hf.repoID⟩]) ∧
    (∀ (m : Model) (mp : String) (s3v : S3Source),
      m.spec.source.huggingFace = none → m.spec.source.s3 = some s3v →
      envVarsFor m mp = envBaseList m mp ++
        [⟨envVarBase m.name ++ "_SOURCE_TYPE", "s3"⟩,
         ⟨envVarBase m.name ++ "_BUCKET", s3v.bucket⟩]) ∧
    (∀ (m : Model) (mp : String) (u : URLSource),
      m.spec.source.huggingFace = none → m.spec.source.s3 = none →
      m.spec.source.url = some u →
      envVarsFor m mp = envBaseList m mp ++
        [⟨envVarBase m.name ++ "_SOURCE_TYPE", "url"⟩,
         ⟨envVarBase m.name ++ "_URL", u.url⟩]) ∧
    (∀ (m : Model) (mp : String),
      m.spec.source.huggingFace = none → m.spec.source.s3 = none →
      m.spec.source.url = none →
      envVarsFor m mp = envBaseList m mp) := by
  refine ⟨resolveMountPath_eq_spec, ?_, ?_, ?_, ?_, ?_⟩
  · intro pod m opts h
    have hi := envTargetIdx_lt pod opts h
    have hne : ¬(pod.containers.isEmpty = true) := by
      simp only [List.isEmpty_iff]
      exact h
    unfold injectEnvVars
    rw [if_neg hne]
    refine ⟨_, rfl, rfl, rfl, rfl, modifyIdx_length _ _ _, ?_⟩
    rw [getCt_modifyIdx pod.containers (envTargetIdx pod opts) _ hi]
    dsimp only
    rw [foldl_append_fresh, resolveMountPath_eq_spec]
  · intro m mp hf hhf
    unfold envVarsFor envBaseList
    rw [hhf]
    split <;> simp
  · intro m mp s3v hhf hs3
    unfold envVarsFor envBaseList
    rw [hhf, hs3]
    split <;> simp
  · intro m mp u hhf hs3 hurl
    unfold envVarsFor envBaseList
    rw [hhf, hs3, hurl]
    split <;> simp
  · intro m mp hhf hs3 hurl
    unfold envVarsFor envBaseList
    rw [hhf, hs3, hurl]
    split <;> simp

/-- C2 witness: the amended clauses at a concrete pod and concrete
huggingface and git models. -/
theorem injectEnvVars_spec_witness :
    resolveMountPath "/custom/path" "test-model" = specMountPath "/custom/path" "test-model" ∧
    (∃ p, injectEnvVars onePodFix hfModelFix defaultOptsFix = .ok p ∧
      p.labels = onePodFix.labels ∧ p.annots = onePodFix.annots ∧
      p.volumes = onePodFix.volumes ∧
      p.containers.length = onePodFix.containers.length ∧
      (getCt p.containers (envTargetIdx onePodFix defaultOptsFix)).env =
        (getCt onePodFix.containers (envTargetIdx onePodFix defaultOptsFix)).env ++
          (envVarsFor hfModelFix (specMountPath defaultOptsFix.mountPath hfModelFix.name)).filter
            (fun v =>
              !(((getCt onePodFix.containers (envTargetIdx onePodFix defaultOptsFix)).env.map
                  (fun e0 => e0.name)).contains v.name))) ∧
    envVarsFor hfModelFix "/models/hfm" = envBaseList hfModelFix "/models/hfm" ++
      [⟨envVarBase hfModelFix.name ++ "_SOURCE_TYPE", "huggingface"⟩,
       ⟨envVarBase hfModelFix.name ++ "_REPO_ID", hfFix.repoID⟩] ∧
    envVarsFor gitModelFix "/models/gm" = envBaseList gitModelFix "/models/gm" :=
  ⟨injectEnvVars_spec.1 "/custom/path" "test-model",
   injectEnvVars_spec.2.1 onePodFix hfModelFix defaultOptsFix (by decide),
   injectEnvVars_spec.2.2.1 hfModelFix "/models/hfm" hfFix rfl,
   injectEnvVars_spec.2.2.2.2.2 gitModelFix "/models/gm" rfl rfl rfl⟩

/-! ### Claims C7 and C8 -/

theorem lookupKV_setKV (kvs : List (String × String)) (k v : String) :
    lookupKV (setKV kvs k v) k = some v := by
  unfold lookupKV setKV
  rw [List.find?_cons_of_pos _ (by simp)]
  rfl

theorem injectVolume_containers (pod : Pod) (m : Model) :
    (injectVolume pod m).containers = pod.containers := by
  unfold injectVolume
  split <;> rfl

theorem injectVolume_labels (pod : Pod) (m : Model) :
    (injectVolume pod m).labels = pod.labels := by
  unfold injectVolume
  split <;> rfl

theorem injectMountAt_labels (pod : Pod) (m : Model) (opts : InjOptions) (i : Nat) (p' : Pod)
    (h : injectMountAt pod m opts i = .ok p') : p'.labels = pod.labels := by
  unfold injectMountAt at h
  split at h
  · cases h
    rfl
  · cases h
    rfl

theorem injectVolumeMount_labels (pod : Pod) (m : Model) (opts : InjOptions) (p' : Pod)
    (h : injectVolumeMount pod m opts = .ok p') : p'.labels = pod.labels := by
  unfold injectVolumeMount at h
  split at h
  · simp at h
  · split at h
    · exact injectMountAt_labels pod m opts 0 p' h
    · split at h
      · exact injectMountAt_labels pod m opts _ p' h
      · simp at h

theorem injectEnvVars_labels (pod : Pod) (m : Model) (opts : InjOptions) (p' : Pod)
    (h : injectEnvVars pod m opts = .ok p') : p'.labels = pod.labels := by
  unfold injectEnvVars at h
  split at h
  · simp at h
  · cases h
    rfl

theorem processNames_patched (models : List Model) (reqNs : String) (opts : InjOptions) :
    ∀ (names : List String) (pod p' : Pod),
      processNames models reqNs opts names pod = .patched p' →
      lookupKV p'.labels labelInjected = some "true" := by
  intro names
  induction names with
  | nil =>
    intro pod p' h
    unfold processNames at h
    cases h
    exact lookupKV_setKV pod.labels labelInjected "true"
  | cons nm rest ih =>
    intro pod p' h
    unfold processNames at h
    split at h
    · exact ih pod p' h
    · split at h
      · simp at h
      · split at h
        · simp at h
        · split at h
          · simp at h
          · split at h
            · split at h
              · simp at h
              · exact ih _ p' h
            · exact ih _ p' h

theorem handle_patched_marker (models : List Model) (reqNs : String) (pod p' : Pod)
    (h : handle models reqNs pod = .patched p') :
    lookupKV p'.labels labelInjected = some "true" := by
  unfold handle at h
  split at h
  · simp at h
  · split at h
    · simp at h
    · split at h
      · simp at h
      · exact processNames_patched models reqNs _ _ pod p' h

/-- C8: mutator idempotence. A pod already carrying the marker label is
allowed unchanged with the already-injected message; a pod whose inject
annotation is absent or empty is allowed unchanged; and any successful
injection stamps the marker label true, so re-invoking the handler on the
patched pod allows it unchanged. -/
theorem mutator_idempotent :
    (∀ (models : List Model) (reqNs : String) (pod : Pod),
      lookupKV pod.labels labelInjected = some "true" →
      handle models reqNs pod = .allowed "already injected") ∧
    (∀ (models : List Model) (reqNs : String) (pod : Pod),
      lookupKV pod.annots annotInject = none →
      ∃ msg, handle models reqNs pod = .allowed msg) ∧
    (∀ (models : List Model) (reqNs : String) (pod : Pod),
      lookupKV pod.annots annotInject = some "" →
      ∃ msg, handle models reqNs pod = .allowed msg) ∧
    (∀ (models : List Model) (reqNs : String) (pod p' : Pod),
      handle models reqNs pod = .patched p' →
      lookupKV p'.labels labelInjected = some "true" ∧
      handle models reqNs p' = .allowed "already injected") := by
  refine ⟨?_, ?_, ?_, ?_⟩
  · intro models reqNs pod h
    unfold handle
    rw [if_pos h]
  · intro models reqNs pod h
    unfold handle
    split
    · exact ⟨_, rfl⟩
    · rw [h]
      exact ⟨_, rfl⟩
  · intro models reqNs pod h
    unfold handle
    split
    · exact ⟨_, rfl⟩
    · rw [h]
      exact ⟨_, rfl⟩
  · intro models reqNs pod p' h
    have hl := handle_patched_marker models reqNs pod p' h
    refine ⟨hl, ?_⟩
    unfold handle
    rw [if_pos hl]

def readyM1Fix : Model :=
  mkModel "m1" ⟨some hfFix, none, none, none⟩ ⟨phaseReady, "model-m1", "", 100, [], 1⟩

def reqPodFix : Pod := ⟨[], [(annotInject, "m1")], [], [⟨"main", [], []⟩]⟩

/-- The pod that handling reqPodFix against the Ready model m1 produces:
marker label stamped, volume, mount and environment variables injected. -/
def injectedPodFix : Pod :=
  ⟨[(labelInjected, "true")], [(annotInject, "m1")],
   [⟨"model-m1", "model-m1", true⟩],
   [⟨"main", [⟨"model-m1", "/models/m1", true⟩],
     [⟨"MODEL_M1_NAME", "m1"⟩, ⟨"MODEL_M1_MOUNT_PATH", "/models/m1"⟩,
      ⟨"MODEL_M1_SOURCE_TYPE", "huggingface"⟩, ⟨"MODEL_M1_REPO_ID", "org/m"⟩]⟩]⟩

/-- C8 witness: the four idempotence clauses at concrete pods, including a
full injection pass whose result is allowed unchanged when re-handled. -/
theorem mutator_idempotent_witness :
    handle [] "default" ⟨[(labelInjected, "true")], [], [], []⟩ =
      .allowed "already injected" ∧
    (∃ msg, handle [] "default" ⟨[], [], [], []⟩ = .allowed msg) ∧
    (∃ msg, handle [] "default" ⟨[], [(annotInject, "")], [], []⟩ = .allowed msg) ∧
    (lookupKV injectedPodFix.labels labelInjected = some "true" ∧
     handle [readyM1Fix] "default" injectedPodFix = .allowed "already injected") :=
  ⟨mutator_idempotent.1 [] "default" ⟨[(labelInjected, "true")], [], [], []⟩ rfl,
   mutator_idempotent.2.1 [] "default" ⟨[], [], [], []⟩ rfl,
   mutator_idempotent.2.2.1 [] "default" ⟨[], [(annotInject, "")], [], []⟩ rfl,
   mutator_idempotent.2.2.2 [readyM1Fix] "default" reqPodFix injectedPodFix (by decide)⟩

/-- C7: the admission handler denies, with a message embedding the
relevant names, whenever a referenced model is absent from the request
namespace, whenever the referenced model is not Ready (the message also
embeds the observed phase), whenever the workload has no containers, and
whenever a container-selector option names a container that does not
exist; a denied response carries no patched pod. -/
theorem admission_denials :
    (∀ (models : List Model) (reqNs : String) (pod : Pod) (nm : String),
      lookupKV pod.labels labelInjected ≠ some "true" →
      lookupKV pod.annots annotInject = some nm → nm ≠ "" →
      splitComma nm = [nm] → trimS nm = nm →
      models.find? (fun m => m.name == nm && m.ns == reqNs) = none →
      handle models reqNs pod =
        .denied ("model " ++ quoteS nm ++ " not found: " ++ notFoundErr nm)) ∧
    (∀ (models : List Model) (reqNs : String) (pod : Pod) (nm : String) (m0 : Model),
      lookupKV pod.labels labelInjected ≠ some "true" →
      lookupKV pod.annots annotInject = some nm → nm ≠ "" →
      splitComma nm = [nm] → trimS nm = nm →
      models.find? (fun m => m.name == nm && m.ns == reqNs) = some m0 →
      m0.status.phase ≠ phaseReady →
      handle models reqNs pod =
        .denied ("model " ++ quoteS nm ++ " is not ready (phase: " ++ m0.status.phase ++ ")")) ∧
    (∀ (models : List Model) (reqNs : String) (pod : Pod) (nm : String) (m0 : Model),
      lookupKV pod.labels labelInjected ≠ some "true" →
      lookupKV pod.annots annotInject = some nm → nm ≠ "" →
      splitComma nm = [nm] → trimS nm = nm →
      models.find? (fun m => m.name == nm && m.ns == reqNs) = some m0 →
      m0.status.phase = phaseReady →
      pod.containers = [] →
      handle models reqNs pod =
        .denied ("failed to inject volume mount for model " ++ quoteS nm ++ ": " ++
          "pod has no containers")) ∧
    (∀ (models : List Model) (reqNs : String) (pod : Pod) (nm : String) (m0 : Model),
      lookupKV pod.labels labelInjected ≠ some "true" →
      lookupKV pod.annots annotInject = some nm → nm ≠ "" →
      splitComma nm = [nm] → trimS nm = nm →
      models.find? (fun m => m.name == nm && m.ns == reqNs) = some m0 →
      m0.status.phase = phaseReady →
      pod.containers ≠ [] →
      (parseOptions pod.annots).containerName ≠ "" →
      findIdxL (fun ct => ct.name == (parseOptions pod.annots).containerName)
        pod.containers = none →
      handle models reqNs pod =
        .denied ("failed to inject volume mount for model " ++ quoteS nm ++ ": " ++
          ("container " ++ quoteS (parseOptions pod.annots).containerName ++ " not found"))) := by
  refine ⟨?_, ?_, ?_, ?_⟩
  · intro models reqNs pod nm h1 h2 h3 h4 h5 hfind
    unfold handle
    rw [if_neg h1, h2]
    simp only [if_neg h3, h4]
    unfold processNames
    rw [h5, if_neg h3, hfind]
  · intro models reqNs pod nm m0 h1 h2 h3 h4 h5 hfind hph
    unfold handle
    rw [if_neg h1, h2]
    simp only [if_neg h3, h4]
    unfold processNames
    rw [h5, if_neg h3]
    simp only [hfind]
    rw [if_pos hph]
  · intro models reqNs pod nm m0 h1 h2 h3 h4 h5 hfind hph hct
    have hmount : injectVolumeMount (injectVolume pod m0) m0 (parseOptions pod.annots) =
        .error "pod has no containers" := by
      unfold injectVolumeMount
      rw [injectVolume_containers, hct]
      rfl
    unfold handle
    rw [if_neg h1, h2]
    simp only [if_neg h3, h4]
    unfold processNames
    rw [h5, if_neg h3]
    simp only [hfind]
    rw [if_neg (by simp [hph]), hmount]
  · intro models reqNs pod nm m0 h1 h2 h3 h4 h5 hfind hph hct hcn hfx
    have hne : ¬((injectVolume pod m0).containers.isEmpty = true) := by
      rw [injectVolume_containers]
      simp only [List.isEmpty_iff]
      exact hct
    have hmount : injectVolumeMount (injectVolume pod m0) m0 (parseOptions pod.annots) =
        .error ("container " ++ quoteS (parseOptions pod.annots).containerName ++
          " not found") := by
      unfold injectVolumeMount
      rw [if_neg hne, if_neg hcn, injectVolume_containers, hfx]
    unfold handle
    rw [if_neg h1, h2]
    simp only [if_neg h3, h4]
    unfold processNames
    rw [h5, if_neg h3]
    simp only [hfind]
    rw [if_neg (by simp [hph]), hmount]

def notReadyM1Fix : Model :=
  mkModel "m1" ⟨some hfFix, none, none, none⟩
    ⟨phaseDownloading, "model-m1", "Download in progress", 0, [], 1⟩

def noCtPodFix : Pod := ⟨[], [(annotInject, "m1")], [], []⟩

def selPodFix : Pod :=
  ⟨[], [(annotInject, "m1"), (annotContainer, "sidecar")], [], [⟨"main", [], []⟩]⟩

/-- C7 witness: the four deny clauses at concrete requests: unknown model,
model still Downloading, workload without containers, and a selector
naming a non-existent container. -/
theorem admission_denials_witness :
    handle [] "default" reqPodFix =
      .denied ("model " ++ quoteS "m1" ++ " not found: " ++ notFoundErr "m1") ∧
    handle [notReadyM1Fix] "default" reqPodFix =
      .denied ("model " ++ quoteS "m1" ++ " is not ready (phase: " ++
        notReadyM1Fix.status.phase ++ ")") ∧
    handle [readyM1Fix] "default" noCtPodFix =
      .denied ("failed to inject volume mount for model " ++ quoteS "m1" ++ ": " ++
        "pod has no containers") ∧
    handle [readyM1Fix] "default" selPodFix =
      .denied ("failed to inject volume mount for model " ++ quoteS "m1" ++ ": " ++
        ("container " ++ quoteS (parseOptions selPodFix.annots).containerName ++
          " not found")) :=
  ⟨admission_denials.1 [] "default" reqPodFix "m1" (by decide) rfl (by decide) rfl rfl rfl,
   admission_denials.2.1 [notReadyM1Fix] "default" reqPodFix "m1" notReadyM1Fix
     (by decide) rfl (by decide) rfl rfl rfl (by decide),
   admission_denials.2.2.1 [readyM1Fix] "default" noCtPodFix "m1" readyM1Fix
     (by decide) rfl (by decide) rfl rfl rfl rfl rfl,
   admission_denials.2.2.2 [readyM1Fix] "default" selPodFix "m1" readyM1Fix
     (by decide) rfl (by decide) rfl rfl rfl rfl (by decide) (by decide) rfl⟩

end MO
